import Mathlib

/-!
Verification of the Gotham AWS SigV4 verification middleware
(`gotham-middleware-aws-sig-verify`, `src/lib.rs`).

The middleware drains the streaming request body, substitutes a buffered
copy back into the Gotham `State`, assembles a canonical `Request` for the
external `aws_sig_verify` crate, and maps the outcome of `verify` to an
HTTP status: 422 for a body-read I/O failure, 401 for a verification
failure, pass-through to the downstream chain on success.

The embedding below is shallow: the hyper `Body` is modelled by the finite
trace of results its `poll` method yields; the external verifier
(`AWSSigV4::verify`) and the downstream chain are opaque function
parameters of `call`; byte strings are `List Nat`.
-/

set_option autoImplicit false

namespace GothamAwsSigVerify

/-- `http::status::StatusCode::UNPROCESSABLE_ENTITY` (HTTP 422). -/
def StatusCode.UNPROCESSABLE_ENTITY : Nat := 422

/-- `http::status::StatusCode::UNAUTHORIZED` (HTTP 401). -/
def StatusCode.UNAUTHORIZED : Nat := 401

/-- `aws_sig_verify::SigningKeyKind`: how far down the HMAC derivation chain
the caller-supplied key lookup function goes. -/
inductive SigningKeyKind
  | KSecret
  | KDate
  | KRegion
  | KService
  | KSigning
deriving DecidableEq, Repr

/-- `chrono::Duration`, modelled as a whole number of seconds. -/
abbrev Duration := Int

/-- `chrono::Duration::minutes`. -/
def Duration.minutes (n : Int) : Duration := n * 60

/-- `aws_sig_verify::SigningKeyFn`: the key lookup callback
`(kind, access_key_id, session_token?, request_date?, region?, service?)`,
returning key bytes or a signature error (modelled by its message). -/
def SigningKeyFn := SigningKeyKind → String → Option String → Option String →
  Option String → Option String → Except String (List Nat)

/-- The middleware configuration struct (src/lib.rs lines 36-42). -/
structure AWSSigV4Verifier where
  signing_key_kind : SigningKeyKind
  signing_key_fn : SigningKeyFn
  allowed_mismatch : Option Duration
  service : String
  region : String

/-- `AWSSigV4Verifier::new` (src/lib.rs lines 47-57): preferred defaults for
`signing_key_kind` (`KSigning`) and `allowed_mismatch` (5 minutes). -/
def AWSSigV4Verifier.new (signing_key_fn : SigningKeyFn) (service : String)
    (region : String) : AWSSigV4Verifier :=
  { signing_key_kind := SigningKeyKind.KSigning
  , signing_key_fn := signing_key_fn
  , allowed_mismatch := some (Duration.minutes 5)
  , service := service
  , region := region }

/-- One observation of `hyper_body.poll()` in the futures-0.1 protocol:
`Ok(NotReady)`, `Ok(Ready(Some(chunk)))`, `Ok(Ready(None))` or `Err(e)`
(the error modelled by a numeric code). -/
inductive PollEvent
  | notReady
  | chunk (bytes : List Nat)
  | eof
  | ioError (e : Nat)
deriving DecidableEq, Repr

/-- A `hyper::Body`, modelled by the finite trace of poll results it will
produce when polled repeatedly. -/
abbrev Body := List PollEvent

/-- `Body::from(bytes)`: a fully buffered body that yields the given bytes
as a single chunk and then ends the stream. -/
def Body.fromBytes (bytes : List Nat) : Body :=
  [PollEvent.chunk bytes, PollEvent.eof]

/-- Result of the body-draining loop. -/
inductive DrainOutcome
  | ok (bytes : List Nat)
  | err (e : Nat)
  | diverge
deriving DecidableEq, Repr

/-- The body-draining loop of `Middleware::call` (src/lib.rs lines 76-90):
poll in a loop, appending each `Ready(Some(chunk))` to the accumulator,
spinning on `NotReady`, breaking with success on `Ready(None)` and
returning the error on `Err`. A trace that runs out without a terminal
event leaves the loop spinning forever, modelled as `diverge`. -/
def drain : List PollEvent → List Nat → DrainOutcome
  | [], _ => DrainOutcome.diverge
  | PollEvent.notReady :: rest, acc => drain rest acc
  | PollEvent.chunk c :: rest, acc => drain rest (acc ++ c)
  | PollEvent.eof :: _, acc => DrainOutcome.ok acc
  | PollEvent.ioError e :: _, _ => DrainOutcome.err e

/-- The components of the Gotham `State` the middleware touches: the
optional `hyper::Body`, plus the `Method`, `Uri` (path and optional query)
and `HeaderMap` borrowed from it. The header map is the ordered list of
(name, value-bytes) pairs its iterator yields. -/
structure State where
  body : Option Body
  method : String
  uriPath : String
  uriQuery : Option String
  headerMap : List (String × List Nat)
deriving DecidableEq, Repr

/-- `headers.entry(key).or_insert_with(Vec::new).push(value)` on the
association-list model of the `HashMap`: append `v` to the entry for `k`,
creating the entry if absent. -/
def insertHeader : List (String × List (List Nat)) → String → List Nat →
    List (String × List (List Nat))
  | [], k, v => [(k, [v])]
  | (k1, vs) :: rest, k, v =>
      if k1 = k then (k1, vs ++ [v]) :: rest
      else (k1, vs) :: insertHeader rest k v

/-- The header-flattening loop of `Middleware::call` (src/lib.rs lines
100-109): push each header key/value pair of the `HeaderMap` iterator onto
the `HashMap` in encounter order. -/
def flattenHeaders (pairs : List (String × List Nat)) :
    List (String × List (List Nat)) :=
  pairs.foldl (fun m p => insertHeader m p.1 p.2) []

/-- `HashMap` lookup on the association-list model. -/
def lookupHeader : List (String × List (List Nat)) → String →
    Option (List (List Nat))
  | [], _ => none
  | (k1, vs) :: rest, k => if k1 = k then some vs else lookupHeader rest k

/-- `aws_sig_verify::Request`, the canonical transport-independent request. -/
structure Request where
  request_method : String
  uri_path : String
  query_string : String
  headers : List (String × List (List Nat))
  body : List Nat
  region : String
  service : String
deriving DecidableEq, Repr

/-- Construction of the canonical `Request` in `Middleware::call`
(src/lib.rs lines 111-122), from the state borrowed after body capture and
the captured body bytes. -/
def mkRequest (self : AWSSigV4Verifier) (state : State) (body : List Nat) :
    Request :=
  { request_method := state.method
  , uri_path := state.uriPath
  , query_string := match state.uriQuery with
      | some s => s
      | none => ""
  , headers := flattenHeaders state.headerMap
  , body := body
  , region := self.region
  , service := self.service }

/-- Outcome of the body-capture phase of `Middleware::call`. -/
inductive CaptureOut
  | fail (st : State) (e : Nat)
  | done (st : State) (bytes : List Nat)
  | diverge
deriving Repr

/-- The body-capture phase of `Middleware::call` (src/lib.rs lines 73-94):
`state.try_take::<Body>()`; when a body is present, drain it and `put` a
buffered copy of the read bytes back into the state; when absent, the
captured bytes stay the empty vector and the state is untouched. On a
drain error the state still has no body: `try_take` removed it and no
replacement was installed. -/
def captureBody (state : State) : CaptureOut :=
  match state.body with
  | none => CaptureOut.done state []
  | some hyper_body =>
      let st1 : State := { state with body := none }
      match drain hyper_body [] with
      | DrainOutcome.err e => CaptureOut.fail st1 e
      | DrainOutcome.diverge => CaptureOut.diverge
      | DrainOutcome.ok bytes =>
          CaptureOut.done { st1 with body := some (Body.fromBytes bytes) } bytes

/-- `AWSSigV4::verify` from the external `aws_sig_verify` crate, consumed
as an opaque function: `none` is `Ok(())`, `some e` carries the signature
error (modelled by a numeric code). -/
def VerifyFn := Request → SigningKeyKind → SigningKeyFn → Option Duration →
  Option Nat

/-- What `Middleware::call` returns: an error future carrying the state and
a handler error with an HTTP status, the downstream chain result, or
divergence of the poll loop. -/
inductive CallResult (α : Type)
  | error (st : State) (status : Nat) (e : Nat)
  | success (r : α)
  | diverge

/-- `Middleware::call` for `AWSSigV4Verifier` (src/lib.rs lines 69-136):
capture the body (422 on an I/O error), build the canonical request, call
the verifier (401 on a verification error), and otherwise hand the state
to the downstream chain. -/
def call {α : Type} (self : AWSSigV4Verifier) (verify : VerifyFn)
    (state : State) (chain : State → α) : CallResult α :=
  match captureBody state with
  | CaptureOut.fail st e =>
      CallResult.error st StatusCode.UNPROCESSABLE_ENTITY e
  | CaptureOut.diverge => CallResult.diverge
  | CaptureOut.done st bytes =>
      match verify (mkRequest self st bytes) self.signing_key_kind
          self.signing_key_fn self.allowed_mismatch with
      | some e => CallResult.error st StatusCode.UNAUTHORIZED e
      | none => CallResult.success (chain st)

/-- The chunks a poll trace delivers before a clean end of stream, when the
trace does end cleanly: `notReady` observations are skipped, `eof` closes
the list; a trace that errors out or never terminates delivers `none`. -/
def deliveredChunks : List PollEvent → Option (List (List Nat))
  | [] => none
  | PollEvent.notReady :: rest => deliveredChunks rest
  | PollEvent.chunk c :: rest => (deliveredChunks rest).map (fun l => c :: l)
  | PollEvent.eof :: _ => some []
  | PollEvent.ioError _ :: _ => none

/-- A signing-key callback used as a concrete input in witnesses. -/
def keyFn0 : SigningKeyFn := fun _ _ _ _ _ _ => Except.error "no key"

/-- A concrete verifier configuration used in witnesses. -/
def cfg0 : AWSSigV4Verifier := AWSSigV4Verifier.new keyFn0 "service" "us-east-1"

/-- A verifier stub that always succeeds, for witnesses. -/
def verifyOk : VerifyFn := fun _ _ _ _ => none

/-- A verifier stub that always fails with error code 3, for witnesses. -/
def verifyBad : VerifyFn := fun _ _ _ _ => some 3

/-- A concrete state whose body stream fails with I/O error 7, for
witnesses. -/
def failState : State :=
  { body := some [PollEvent.notReady, PollEvent.ioError 7]
  , method := "GET"
  , uriPath := "/"
  , uriQuery := none
  , headerMap := [("host", [101, 120])] }

/-- A concrete state whose body stream delivers one chunk `[1, 2]` then a
clean end of stream, for witnesses. -/
def okState : State :=
  { body := some [PollEvent.chunk [1, 2], PollEvent.notReady, PollEvent.eof]
  , method := "GET"
  , uriPath := "/"
  , uriQuery := some "a=b"
  , headerMap := [("host", [101, 120])] }

/-- The identity chain, for witnesses. -/
def chainId : State → State := fun s => s

/-- C5: `new(signing_key_fn, service, region)` returns a verifier with
`signing_key_kind = KSigning`, `allowed_mismatch = Some(5 minutes)`, and
the given service and region (and key function); every field remains
individually overridable by direct field configuration. -/
theorem C5_new_defaults (f : SigningKeyFn) (service region : String) :
    (AWSSigV4Verifier.new f service region).signing_key_kind
        = SigningKeyKind.KSigning ∧
    (AWSSigV4Verifier.new f service region).allowed_mismatch
        = some (Duration.minutes 5) ∧
    (AWSSigV4Verifier.new f service region).service = service ∧
    (AWSSigV4Verifier.new f service region).region = region ∧
    (AWSSigV4Verifier.new f service region).signing_key_fn = f ∧
    (∀ k, ({ AWSSigV4Verifier.new f service region with
        signing_key_kind := k }).signing_key_kind = k) ∧
    (∀ d, ({ AWSSigV4Verifier.new f service region with
        allowed_mismatch := d }).allowed_mismatch = d) ∧
    (∀ fn, ({ AWSSigV4Verifier.new f service region with
        signing_key_fn := fn }).signing_key_fn = fn) ∧
    (∀ s, ({ AWSSigV4Verifier.new f service region with
        service := s }).service = s) ∧
    (∀ r, ({ AWSSigV4Verifier.new f service region with
        region := r }).region = r) := by
  refine ⟨rfl, rfl, rfl, rfl, rfl, ?_, ?_, ?_, ?_, ?_⟩ <;> intro x <;> rfl

/-- C1: the middleware maps failures to HTTP statuses exactly as follows:
a body-read I/O error gives an error outcome with status 422; a verify
error gives an error outcome with status 401; on verification success the
downstream chain result is returned unmodified. -/
theorem C1_failure_status_mapping {α : Type} (self : AWSSigV4Verifier)
    (verify : VerifyFn) (state st : State) (chain : State → α)
    (bytes : List Nat) (e : Nat) :
    (captureBody state = CaptureOut.fail st e →
      call self verify state chain = CallResult.error st 422 e) ∧
    (captureBody state = CaptureOut.done st bytes →
      verify (mkRequest self st bytes) self.signing_key_kind
          self.signing_key_fn self.allowed_mismatch = some e →
      call self verify state chain = CallResult.error st 401 e) ∧
    (captureBody state = CaptureOut.done st bytes →
      verify (mkRequest self st bytes) self.signing_key_kind
          self.signing_key_fn self.allowed_mismatch = none →
      call self verify state chain = CallResult.success (chain st)) := by
  refine ⟨fun h1 => ?_, fun h1 h2 => ?_, fun h1 h2 => ?_⟩
  · simp [call, h1, StatusCode.UNPROCESSABLE_ENTITY]
  · simp [call, h1, h2, StatusCode.UNAUTHORIZED]
  · simp [call, h1, h2]

/-- Witness for C1 at concrete inputs: a stream failing with I/O error 7
gives status 422; a clean stream with a failing verifier gives status 401;
a clean stream with a succeeding verifier returns the chain result. -/
theorem C1_failure_status_mapping_witness :
    call cfg0 verifyOk failState chainId
        = CallResult.error { failState with body := none } 422 7 ∧
    call cfg0 verifyBad okState chainId
        = CallResult.error
            { okState with body := some (Body.fromBytes [1, 2]) } 401 3 ∧
    call cfg0 verifyOk okState chainId
        = CallResult.success { okState with body := some (Body.fromBytes [1, 2]) } :=
  ⟨(C1_failure_status_mapping cfg0 verifyOk failState
      { failState with body := none } chainId [] 7).1 rfl,
   (C1_failure_status_mapping cfg0 verifyBad okState
      { okState with body := some (Body.fromBytes [1, 2]) } chainId
      [1, 2] 3).2.1 rfl rfl,
   (C1_failure_status_mapping cfg0 verifyOk okState
      { okState with body := some (Body.fromBytes [1, 2]) } chainId
      [1, 2] 0).2.2 rfl rfl⟩

/-- C3: when the body stream fails with an I/O error during draining, the
middleware returns the 422 error outcome at once; the result does not
depend on the verifier or on the downstream chain, so neither is ever
invoked. -/
theorem C3_io_error_short_circuit {α β : Type} (self : AWSSigV4Verifier)
    (verify : VerifyFn) (verify2 : VerifyFn) (state : State)
    (chain : State → α) (chain2 : State → β)
    (polls : List PollEvent) (e : Nat)
    (hbody : state.body = some polls)
    (herr : drain polls [] = DrainOutcome.err e) :
    call self verify state chain
        = CallResult.error { state with body := none } 422 e ∧
    call self verify2 state chain2
        = CallResult.error { state with body := none } 422 e := by
  constructor <;>
    simp [call, captureBody, hbody, herr, StatusCode.UNPROCESSABLE_ENTITY]

/-- Witness for C3 at a concrete input: the failing stream gives the same
422 outcome under two different verifiers and chains. -/
theorem C3_io_error_short_circuit_witness :
    call cfg0 verifyOk failState chainId
        = CallResult.error { failState with body := none } 422 7 ∧
    call cfg0 verifyBad failState (fun _ => (0 : Nat))
        = CallResult.error { failState with body := none } 422 7 :=
  C3_io_error_short_circuit cfg0 verifyOk verifyBad failState chainId
    (fun _ => (0 : Nat)) [PollEvent.notReady, PollEvent.ioError 7] 7 rfl rfl

/-- C10: when the body stream fails with an I/O error during draining, the
state carried by the 422 error outcome has no Body component: try_take
removed it and no replacement was installed. -/
theorem C10_error_state_has_no_body {α : Type} (self : AWSSigV4Verifier)
    (verify : VerifyFn) (state : State) (chain : State → α)
    (polls : List PollEvent) (e : Nat)
    (hbody : state.body = some polls)
    (herr : drain polls [] = DrainOutcome.err e) :
    ∃ st, call self verify state chain = CallResult.error st 422 e ∧
      st.body = none := by
  refine ⟨{ state with body := none }, ?_, rfl⟩
  simp [call, captureBody, hbody, herr, StatusCode.UNPROCESSABLE_ENTITY]

/-- Witness for C10 at a concrete input. -/
theorem C10_error_state_has_no_body_witness :
    ∃ st, call cfg0 verifyOk failState chainId = CallResult.error st 422 7 ∧
      st.body = none :=
  C10_error_state_has_no_body cfg0 verifyOk failState chainId
    [PollEvent.notReady, PollEvent.ioError 7] 7 rfl rfl

/-- Draining a trace that delivers `chunks` before a clean end of stream
appends the concatenation of the chunks, in arrival order, to the
accumulator. -/
theorem drain_deliveredChunks (polls : List PollEvent) :
    ∀ (chunks : List (List Nat)) (acc : List Nat),
      deliveredChunks polls = some chunks →
      drain polls acc = DrainOutcome.ok (acc ++ chunks.flatten) := by
  induction polls with
  | nil => intro chunks acc h; simp [deliveredChunks] at h
  | cons p rest ih =>
      intro chunks acc h
      cases p with
      | notReady =>
          simp only [deliveredChunks] at h
          simpa [drain] using ih chunks acc h
      | chunk c =>
          simp only [deliveredChunks, Option.map_eq_some'] at h
          obtain ⟨l, hl, rfl⟩ := h
          simp [drain, ih l (acc ++ c) hl, List.append_assoc]
      | eof =>
          simp only [deliveredChunks, Option.some.injEq] at h
          subst h
          simp [drain]
      | ioError e => simp [deliveredChunks] at h

/-- C2: for a body delivered as any finite sequence of chunks (including
zero chunks), the Body installed in the state is a buffered body holding
exactly the concatenation of the chunks in arrival order, that same byte
sequence is the body field of the canonical Request passed to the
verifier, and on verification success the chain receives that state. -/
theorem C2_body_preservation {α : Type} (self : AWSSigV4Verifier)
    (verify : VerifyFn) (state : State) (chain : State → α)
    (polls : List PollEvent) (chunks : List (List Nat))
    (hbody : state.body = some polls)
    (hchunks : deliveredChunks polls = some chunks) :
    captureBody state
        = CaptureOut.done
            { state with body := some (Body.fromBytes chunks.flatten) }
            chunks.flatten ∧
    drain (Body.fromBytes chunks.flatten) [] = DrainOutcome.ok chunks.flatten ∧
    (mkRequest self { state with body := some (Body.fromBytes chunks.flatten) }
        chunks.flatten).body = chunks.flatten ∧
    (verify (mkRequest self
          { state with body := some (Body.fromBytes chunks.flatten) }
          chunks.flatten)
        self.signing_key_kind self.signing_key_fn self.allowed_mismatch
        = none →
      call self verify state chain
        = CallResult.success
            (chain { state with body := some (Body.fromBytes chunks.flatten) })) := by
  have hdrain := drain_deliveredChunks polls chunks [] hchunks
  simp only [List.nil_append] at hdrain
  have hcap : captureBody state
      = CaptureOut.done
          { state with body := some (Body.fromBytes chunks.flatten) }
          chunks.flatten := by
    simp [captureBody, hbody, hdrain]
  refine ⟨hcap, ?_, rfl, fun hv => ?_⟩
  · simp [drain, Body.fromBytes]
  · simp [call, hcap, hv]

/-- Witness for C2 at a concrete input: a body delivered as the single
chunk `[1, 2]` (with an interleaved NotReady) is captured and re-installed
byte-identically and handed to the chain on verification success. -/
theorem C2_body_preservation_witness :
    captureBody okState
        = CaptureOut.done
            { okState with body := some (Body.fromBytes [1, 2]) } [1, 2] ∧
    drain (Body.fromBytes [1, 2]) [] = DrainOutcome.ok [1, 2] ∧
    (mkRequest cfg0 { okState with body := some (Body.fromBytes [1, 2]) }
        [1, 2]).body = [1, 2] ∧
    (verifyOk (mkRequest cfg0
          { okState with body := some (Body.fromBytes [1, 2]) } [1, 2])
        cfg0.signing_key_kind cfg0.signing_key_fn cfg0.allowed_mismatch
        = none →
      call cfg0 verifyOk okState chainId
        = CallResult.success
            (chainId { okState with body := some (Body.fromBytes [1, 2]) })) :=
  C2_body_preservation cfg0 verifyOk okState chainId
    [PollEvent.chunk [1, 2], PollEvent.notReady, PollEvent.eof]
    [[1, 2]] rfl rfl

/-- A poll trace holding a terminal event (end of stream or error) never
leaves the draining loop spinning. -/
theorem drain_ne_diverge (polls : List PollEvent) :
    ∀ acc : List Nat,
      (PollEvent.eof ∈ polls ∨ ∃ e, PollEvent.ioError e ∈ polls) →
      drain polls acc ≠ DrainOutcome.diverge := by
  induction polls with
  | nil =>
      intro acc h
      rcases h with h | ⟨e, h⟩ <;> simp at h
  | cons p rest ih =>
      intro acc h
      cases p with
      | notReady =>
          simp only [List.mem_cons] at h
          have h2 : PollEvent.eof ∈ rest ∨ ∃ e, PollEvent.ioError e ∈ rest := by
            rcases h with h | ⟨e, h⟩
            · rcases h with h | h
              · exact absurd h (by simp)
              · exact Or.inl h
            · rcases h with h | h
              · exact absurd h (by simp)
              · exact Or.inr ⟨e, h⟩
          simpa [drain] using ih acc h2
      | chunk c =>
          simp only [List.mem_cons] at h
          have h2 : PollEvent.eof ∈ rest ∨ ∃ e, PollEvent.ioError e ∈ rest := by
            rcases h with h | ⟨e, h⟩
            · rcases h with h | h
              · exact absurd h (by simp)
              · exact Or.inl h
            · rcases h with h | h
              · exact absurd h (by simp)
              · exact Or.inr ⟨e, h⟩
          simpa [drain] using ih (acc ++ c) h2
      | eof => simp [drain]
      | ioError e => simp [drain]

/-- C6: the draining loop terminates on every poll trace that eventually
yields end of stream or an error; in particular a stream yielding zero
chunks (any number of NotReady observations, then end of stream) drains to
an empty captured buffer, not an error. -/
theorem C6_drain_terminates (polls : List PollEvent) (acc : List Nat)
    (h : PollEvent.eof ∈ polls ∨ ∃ e, PollEvent.ioError e ∈ polls) :
    drain polls acc ≠ DrainOutcome.diverge ∧
    ∀ n, drain (List.replicate n PollEvent.notReady ++ [PollEvent.eof]) []
        = DrainOutcome.ok [] := by
  refine ⟨drain_ne_diverge polls acc h, fun n => ?_⟩
  induction n with
  | zero => simp [drain]
  | succ n ihn => simpa [List.replicate_succ, drain] using ihn

/-- Witness for C6 at a concrete input: the one-event trace holding only
end of stream. -/
theorem C6_drain_terminates_witness :
    drain [PollEvent.eof] [] ≠ DrainOutcome.diverge ∧
    ∀ n, drain (List.replicate n PollEvent.notReady ++ [PollEvent.eof]) []
        = DrainOutcome.ok [] :=
  C6_drain_terminates [PollEvent.eof] [] (Or.inl (by simp))

/-- C7: the query_string field of the canonical Request is the raw query
string when the URI has a query component and the empty string otherwise;
its type is String, never an optional value. -/
theorem C7_query_string (self : AWSSigV4Verifier) (state : State)
    (bytes : List Nat) :
    (∀ s, state.uriQuery = some s →
      (mkRequest self state bytes).query_string = s) ∧
    (state.uriQuery = none → (mkRequest self state bytes).query_string = "") := by
  constructor
  · intro s hs; simp [mkRequest, hs]
  · intro h; simp [mkRequest, h]

/-- Witness for C7 at concrete inputs: a URI with query `a=b` and a URI
with no query component. -/
theorem C7_query_string_witness :
    (mkRequest cfg0 okState [1, 2]).query_string = "a=b" ∧
    (mkRequest cfg0 failState []).query_string = "" :=
  ⟨(C7_query_string cfg0 okState [1, 2]).1 "a=b" rfl,
   (C7_query_string cfg0 failState []).2 rfl⟩

/-- C8: on every request on which body capture succeeds, the state handed
onward differs from the incoming state at most in its Body component: the
method, URI path, URI query and header collection are unchanged; and when
verification succeeds the chain receives exactly that state. -/
theorem C8_state_frame {α : Type} (self : AWSSigV4Verifier)
    (verify : VerifyFn) (state st : State) (chain : State → α)
    (bytes : List Nat)
    (hdone : captureBody state = CaptureOut.done st bytes) :
    st.method = state.method ∧ st.uriPath = state.uriPath ∧
    st.uriQuery = state.uriQuery ∧ st.headerMap = state.headerMap ∧
    (verify (mkRequest self st bytes) self.signing_key_kind
        self.signing_key_fn self.allowed_mismatch = none →
      call self verify state chain = CallResult.success (chain st)) := by
  have hcall : verify (mkRequest self st bytes) self.signing_key_kind
      self.signing_key_fn self.allowed_mismatch = none →
      call self verify state chain = CallResult.success (chain st) := by
    intro hv
    simp [call, hdone, hv]
  cases hb : state.body with
  | none =>
      have hcap : captureBody state = CaptureOut.done state [] := by
        simp [captureBody, hb]
      rw [hcap] at hdone
      injection hdone with h1 h2
      subst h1
      exact ⟨rfl, rfl, rfl, rfl, hcall⟩
  | some polls =>
      cases hd : drain polls [] with
      | ok b =>
          have hcap : captureBody state
              = CaptureOut.done
                  { state with body := some (Body.fromBytes b) } b := by
            simp [captureBody, hb, hd]
          rw [hcap] at hdone
          injection hdone with h1 h2
          subst h1
          exact ⟨rfl, rfl, rfl, rfl, hcall⟩
      | err e => simp [captureBody, hb, hd] at hdone
      | diverge => simp [captureBody, hb, hd] at hdone

/-- Witness for C8 at a concrete input: capturing the one-chunk body of
`okState` leaves every component except the Body unchanged, and a
succeeding verifier hands that state to the chain. -/
theorem C8_state_frame_witness :
    ({ okState with body := some (Body.fromBytes [1, 2]) } : State).method
        = okState.method ∧
    ({ okState with body := some (Body.fromBytes [1, 2]) } : State).headerMap
        = okState.headerMap ∧
    call cfg0 verifyOk okState chainId
        = CallResult.success
            (chainId { okState with body := some (Body.fromBytes [1, 2]) }) :=
  ⟨(C8_state_frame cfg0 verifyOk okState
      { okState with body := some (Body.fromBytes [1, 2]) } chainId
      [1, 2] rfl).1,
   (C8_state_frame cfg0 verifyOk okState
      { okState with body := some (Body.fromBytes [1, 2]) } chainId
      [1, 2] rfl).2.2.2.1,
   (C8_state_frame cfg0 verifyOk okState
      { okState with body := some (Body.fromBytes [1, 2]) } chainId
      [1, 2] rfl).2.2.2.2 rfl⟩

/-- C9: the buffered Body replaces the original before the verifier runs,
so when draining succeeds and verification fails, the 401 error outcome
carries the state that already holds the replaced, fully buffered Body. -/
theorem C9_replacement_before_verify {α : Type} (self : AWSSigV4Verifier)
    (verify : VerifyFn) (state : State) (chain : State → α)
    (polls : List PollEvent) (bytes : List Nat) (e : Nat)
    (hbody : state.body = some polls)
    (hok : drain polls [] = DrainOutcome.ok bytes)
    (hv : verify (mkRequest self
          { state with body := some (Body.fromBytes bytes) } bytes)
        self.signing_key_kind self.signing_key_fn self.allowed_mismatch
        = some e) :
    call self verify state chain
        = CallResult.error
            { state with body := some (Body.fromBytes bytes) } 401 e ∧
    drain (Body.fromBytes bytes) [] = DrainOutcome.ok bytes := by
  have hcap : captureBody state
      = CaptureOut.done
          { state with body := some (Body.fromBytes bytes) } bytes := by
    simp [captureBody, hbody, hok]
  constructor
  · simp [call, hcap, hv, StatusCode.UNAUTHORIZED]
  · simp [drain, Body.fromBytes]

/-- Witness for C9 at a concrete input: the one-chunk body of `okState`
with an always-failing verifier. -/
theorem C9_replacement_before_verify_witness :
    call cfg0 verifyBad okState chainId
        = CallResult.error
            { okState with body := some (Body.fromBytes [1, 2]) } 401 3 ∧
    drain (Body.fromBytes [1, 2]) [] = DrainOutcome.ok [1, 2] :=
  C9_replacement_before_verify cfg0 verifyBad okState chainId
    [PollEvent.chunk [1, 2], PollEvent.notReady, PollEvent.eof] [1, 2] 3
    rfl rfl rfl

/-- Looking up `k2` after appending `v` under `k`: the sequence for `k`
grows by `v` at the end, every other key is untouched. -/
theorem lookupHeader_insertHeader (m : List (String × List (List Nat)))
    (k k2 : String) (v : List Nat) :
    lookupHeader (insertHeader m k v) k2
      = if k2 = k then some ((lookupHeader m k).getD [] ++ [v])
        else lookupHeader m k2 := by
  induction m with
  | nil =>
      by_cases h : k2 = k
      · subst h; simp [insertHeader, lookupHeader]
      · simp [insertHeader, lookupHeader, h, Ne.symm h]
  | cons p rest ih =>
      obtain ⟨k1, vs⟩ := p
      by_cases h1 : k1 = k
      · subst h1
        by_cases h2 : k2 = k1
        · subst h2; simp [insertHeader, lookupHeader]
        · simp [insertHeader, lookupHeader, h2, Ne.symm h2]
      · by_cases h2 : k2 = k
        · subst h2
          have h3 : k1 ≠ k2 := h1
          simp [insertHeader, lookupHeader, h1, h3, ih]
        · simp [insertHeader, lookupHeader, h1, h2, ih]

/-- The flattening fold, run from any starting map, extends the sequence
for `name` by the filtered values of the remaining pairs in encounter
order. -/
theorem lookupHeader_foldl (pairs : List (String × List Nat))
    (m : List (String × List (List Nat))) (name : String) :
    (lookupHeader (pairs.foldl (fun m2 p => insertHeader m2 p.1 p.2) m)
        name).getD []
      = (lookupHeader m name).getD []
        ++ (pairs.filter (fun p => p.1 == name)).map (fun p => p.2) := by
  induction pairs generalizing m with
  | nil => simp
  | cons p rest ih =>
      obtain ⟨k, v⟩ := p
      simp only [List.foldl_cons]
      rw [ih]
      by_cases h : k = name
      · subst h
        simp [lookupHeader_insertHeader, List.filter_cons]
      · simp [lookupHeader_insertHeader, h, Ne.symm h, List.filter_cons]

/-- The flattening fold leaves `name` absent exactly when `name` was
absent from the starting map and no remaining pair carries it. -/
theorem lookupHeader_foldl_none (pairs : List (String × List Nat))
    (m : List (String × List (List Nat))) (name : String) :
    (lookupHeader (pairs.foldl (fun m2 p => insertHeader m2 p.1 p.2) m)
        name = none
      ↔ lookupHeader m name = none
        ∧ pairs.filter (fun p => p.1 == name) = []) := by
  induction pairs generalizing m with
  | nil => simp
  | cons p rest ih =>
      obtain ⟨k, v⟩ := p
      simp only [List.foldl_cons]
      rw [ih]
      by_cases h : k = name
      · subst h
        simp [lookupHeader_insertHeader, List.filter_cons]
      · simp [lookupHeader_insertHeader, h, Ne.symm h, List.filter_cons]

/-- C4: the flattened headers map assigns to each header name exactly the
ordered sequence of the raw byte-values the transport collection carries
under that (case-sensitively equal) name, in encounter order, duplicates
included; a name is absent from the map exactly when no pair carries it;
and the canonical Request uses this flattening of the state header map. -/
theorem C4_header_flattening (pairs : List (String × List Nat))
    (name : String) :
    (lookupHeader (flattenHeaders pairs) name).getD []
      = (pairs.filter (fun p => p.1 == name)).map (fun p => p.2) ∧
    (lookupHeader (flattenHeaders pairs) name = none
      ↔ pairs.filter (fun p => p.1 == name) = []) ∧
    ∀ (self : AWSSigV4Verifier) (state : State) (bytes : List Nat),
      (mkRequest self state bytes).headers = flattenHeaders state.headerMap := by
  refine ⟨?_, ?_, fun self state bytes => rfl⟩
  · simpa [flattenHeaders] using lookupHeader_foldl pairs [] name
  · exact ⟨fun hh => ((lookupHeader_foldl_none pairs [] name).mp hh).2,
      fun hh => (lookupHeader_foldl_none pairs [] name).mpr ⟨rfl, hh⟩⟩

end GothamAwsSigVerify
